import Mathlib

/-!
Shallow embedding of the order / entitlement core of the `project-backend`
bookstore repository (Express + MySQL).  The definitions below mirror, in
order:

* the data model of `database.sql` (books, users, orders, order_items, gifts);
* the order-creation transaction `POST /api/orders` from `routes/orders.js`;
* the order-retrieval route `GET /api/orders/:id` and its `softStatusPatch`
  helper from `routes/orders.js`;
* the content-access route `GET /api/books/:bookId/read` (the revision that
  checks direct orders first and then gift rows);
* the background status-reconciliation job from `server.js`.

Timestamps are modelled as integers (an abstract instant; adding a number of
days is modelled as integer addition).  Monetary values are rationals;
JavaScript `toFixed(2)` is modelled by `round2` (round half up to 2 decimal
places).  SQL rows are Lean structures, tables are lists, and the checkout
transaction is a function `Store → … → Except OrderError (Store × ℕ)` whose
error result stands for a rolled-back transaction (the store is unchanged).
The random gift claim tokens of `crypto.randomBytes` are modelled by an
explicit token stream `tk : ℕ → String` consumed in order.
-/

namespace Bookstore

/-- Order mode, `ENUM('buy','rent','gift')` in `database.sql`. -/
inductive Mode where
  | buy
  | rent
  | gift
deriving DecidableEq, Repr

/-- Payment status, `ENUM('pending','completed','failed','captured')`. -/
inductive PayStatus where
  | pending
  | completed
  | failed
  | captured
deriving DecidableEq, Repr

/-- A row of the `books` table (the columns the core reads). -/
structure Book where
  id : String
  price : ℚ
  stock : ℤ
  contentUrl : Option String
deriving DecidableEq, Repr

/-- A row of the `users` table (the columns the core reads). -/
structure UserRow where
  id : ℕ
  email : String
deriving DecidableEq, Repr

/-- A row of the `orders` table. -/
structure OrderRow where
  id : ℕ
  userId : ℕ
  mode : Mode
  total : ℚ
  paymentMethod : Option String
  rentalDuration : Option ℤ
  rentalEnd : Option ℤ
  giftEmail : Option String
  shippingSpeed : Option String
  shippingFee : ℚ
  codFee : ℚ
  status : String
  createdAt : ℤ
  deliveryEta : Option ℤ
  paymentStatus : PayStatus
deriving DecidableEq, Repr

/-- A row of the `order_items` table. -/
structure OrderItemRow where
  orderId : ℕ
  bookId : String
  quantity : ℤ
  price : ℚ
deriving DecidableEq, Repr

/-- A row of the `gifts` table. -/
structure GiftRow where
  orderId : ℕ
  bookId : String
  quantity : ℤ
  recipientEmail : String
  claimToken : String
  recipientUserId : Option ℕ
  claimedAt : Option ℤ
  createdAt : ℤ
deriving DecidableEq, Repr

/-- The database state read and written by the core routes.
`nextOrderId` models the `AUTO_INCREMENT` counter of `orders.id`. -/
structure Store where
  books : List Book
  users : List UserRow
  orders : List OrderRow
  orderItems : List OrderItemRow
  gifts : List GiftRow
  nextOrderId : ℕ
deriving DecidableEq, Repr

/-- `SELECT … FROM books WHERE id = ?` (primary-key lookup). -/
def findBook (books : List Book) (bid : String) : Option Book :=
  books.find? (fun b => b.id = bid)

/-- One requested line item of a checkout, `{ book_id, quantity }`. -/
structure ItemReq where
  bookId : String
  quantity : ℤ
deriving DecidableEq, Repr

/-- The body of `POST /api/orders` (the fields the handler reads). -/
structure OrderReq where
  items : List ItemReq
  mode : Mode
  paymentMethod : Option String
  rentalDuration : Option ℤ
  giftEmail : Option String
  shippingSpeed : Option String
deriving DecidableEq, Repr

/-- The business failures the checkout transaction can throw; each
constructor corresponds to one `throw`/`400` message of the handler. -/
inductive OrderError where
  | emptyItems
  | giftEmailRequired
  | invalidItem
  | bookNotFound (bookId : String)
  | insufficientStock (bookId : String)
deriving DecidableEq, Repr

/-- JavaScript truthiness of an optional string (`'' || null` is `null`). -/
def normStr (s : Option String) : Option String :=
  match s with
  | none => none
  | some v => if v = "" then none else some v

/-- `Number(total.toFixed(2))`: round half up to two decimal places. -/
def round2 (q : ℚ) : ℚ :=
  (⌊q * 100 + 1 / 2⌋ : ℚ) / 100

/-- The per-item charged price by mode: rent multiplies the catalog price by
`0.35` when the priced rental length is 30 days and `0.55` otherwise; buy and
gift charge the full catalog price. -/
def priceFor (mode : Mode) (rentalDays : Option ℤ) (p : ℚ) : ℚ :=
  match mode with
  | .rent => p * (if rentalDays = some 30 then (7 : ℚ) / 20 else (11 : ℚ) / 20)
  | _ => p

/-- `shippingCosts[chosen] ?? shippingCosts['standard']` with
`chosen = shipping_speed || 'standard'`. -/
def shippingCost (sp : Option String) : ℚ :=
  if sp = some "express" then 70
  else if sp = some "priority" then 120
  else 30

/-- Delivery ETA in days by shipping speed (priority 1, express 3, else 5). -/
def etaDays (sp : Option String) : ℤ :=
  if sp = some "priority" then 1
  else if sp = some "express" then 3
  else 5

/-- `UPDATE books SET stock = stock - ? WHERE id = ?`. -/
def updateStock (books : List Book) (bid : String) (q : ℤ) : List Book :=
  books.map (fun b => if b.id = bid then { b with stock := b.stock - q } else b)

/-- A processed line item (`processedItems` array): the book, the quantity and
the price actually charged. -/
structure PItem where
  bookId : String
  quantity : ℤ
  price : ℚ
deriving DecidableEq, Repr

/-- The per-item loop of the checkout transaction: validate the item, fetch
the book, select the charged price, accumulate the total, and (buy mode only)
check and decrement stock.  Errors abort the whole loop. -/
def processItems (mode : Mode) (rentalDays : Option ℤ) :
    List ItemReq → List Book → ℚ → List PItem →
    Except OrderError (List Book × ℚ × List PItem)
  | [], books, total, acc => .ok (books, total, acc)
  | it :: rest, books, total, acc =>
    if it.bookId = "" ∨ it.quantity ≤ 0 then .error .invalidItem
    else
      match findBook books it.bookId with
      | none => .error (.bookNotFound it.bookId)
      | some bk =>
        if mode = .buy then
          if bk.stock < it.quantity then .error (.insufficientStock it.bookId)
          else processItems mode rentalDays rest
            (updateStock books it.bookId it.quantity)
            (total + priceFor mode rentalDays bk.price * (it.quantity : ℚ))
            (acc ++ [⟨it.bookId, it.quantity, priceFor mode rentalDays bk.price⟩])
        else processItems mode rentalDays rest books
          (total + priceFor mode rentalDays bk.price * (it.quantity : ℚ))
          (acc ++ [⟨it.bookId, it.quantity, priceFor mode rentalDays bk.price⟩])

/-- `rental_duration || null` on the insert (`0` is falsy in JavaScript). -/
def normInt (d : Option ℤ) : Option ℤ :=
  match d with
  | none => none
  | some v => if v = 0 then none else some v

/-- The gift rows inserted for a gift order: one per requested item, each
with the next token from the stream; `recipient_user_id` and `claimed_at`
are filled iff a matching account was found. -/
def mkGiftRows (oid : ℕ) (items : List ItemReq) (e : String) (ruid : Option ℕ)
    (now : ℤ) (tk : ℕ → String) : List GiftRow :=
  items.enum.map (fun p =>
    { orderId := oid
      bookId := p.2.bookId
      quantity := p.2.quantity
      recipientEmail := e
      claimToken := tk p.1
      recipientUserId := ruid
      claimedAt := if ruid.isSome then some now else none
      createdAt := now })

/-- The rental length used for pricing and for `rental_end`:
`rental_duration && Number(rental_duration) > 0 ? Number(rental_duration) : 30`. -/
def rentDays (d : Option ℤ) : ℤ :=
  match d with
  | some v => if 0 < v then v else 30
  | none => 30

/-- The `rentalDays` value of the handler: only rent mode prices by duration. -/
def priceDays (mode : Mode) (d : Option ℤ) : Option ℤ :=
  if mode = .rent then some (rentDays d) else none

/-- The shipping fee added to the total (buy mode only). -/
def buyShippingFee (req : OrderReq) : ℚ :=
  if req.mode = .buy then shippingCost (normStr req.shippingSpeed) else 0

/-- The flat cash-on-delivery fee (buy mode with `payment_method = 'cod'`). -/
def buyCodFee (req : OrderReq) : ℚ :=
  if req.paymentMethod = some "cod" ∧ req.mode = .buy then 10 else 0

/-- The `orders` row inserted by the checkout transaction, given the items
subtotal accumulated by the loop. -/
def newOrderRow (oid : ℕ) (uid : ℕ) (req : OrderReq) (now : ℤ)
    (itemsSubtotal : ℚ) : OrderRow :=
  { id := oid
    userId := uid
    mode := req.mode
    total := round2 (itemsSubtotal + buyShippingFee req + buyCodFee req)
    paymentMethod := normStr req.paymentMethod
    rentalDuration := normInt req.rentalDuration
    rentalEnd := if req.mode = .rent then some (now + rentDays req.rentalDuration) else none
    giftEmail := normStr req.giftEmail
    shippingSpeed :=
      if req.mode = .buy then some ((normStr req.shippingSpeed).getD "standard") else none
    shippingFee := buyShippingFee req
    codFee := buyCodFee req
    status :=
      match req.mode with
      | .buy => "Pending"
      | .rent => "Active"
      | .gift => "Delivered"
    createdAt := now
    deliveryEta := if req.mode = .buy then some (now + etaDays req.shippingSpeed) else none
    paymentStatus := .pending }

/-- The gift rows inserted by the checkout transaction (gift mode only). -/
def newGiftRows (store : Store) (oid : ℕ) (req : OrderReq) (now : ℤ)
    (tk : ℕ → String) : List GiftRow :=
  if req.mode = .gift then
    let e := (normStr req.giftEmail).getD ""
    mkGiftRows oid req.items e
      ((store.users.find? (fun u => u.email = e)).map (fun u => u.id)) now tk
  else []

/-- The checkout transaction `POST /api/orders` of `routes/orders.js`:
validation, per-item pricing and stock handling, fee computation, the order /
order-item / gift inserts.  An `.error` result models a rolled-back
transaction (no state change); `.ok (store2, oid)` is the committed state and
the new order id. -/
def createOrder (store : Store) (uid : ℕ) (req : OrderReq) (now : ℤ)
    (tk : ℕ → String) : Except OrderError (Store × ℕ) :=
  if req.items = [] then .error .emptyItems
  else if req.mode = .gift ∧ normStr req.giftEmail = none then .error .giftEmailRequired
  else
    match processItems req.mode (priceDays req.mode req.rentalDuration)
        req.items store.books 0 [] with
    | .error e => .error e
    | .ok (books2, sub, pis) =>
      let oid := store.nextOrderId
      .ok ({ store with
              books := books2
              orders := store.orders ++ [newOrderRow oid uid req now sub]
              orderItems :=
                store.orderItems ++
                  pis.map (fun p => OrderItemRow.mk oid p.bookId p.quantity p.price)
              gifts := store.gifts ++ newGiftRows store oid req now tk
              nextOrderId := oid + 1 }, oid)

/-- HTTP-level outcome of `POST /api/orders`. -/
inductive OrderResponse where
  | created (oid : ℕ)
  | badRequest (e : OrderError)
deriving DecidableEq, Repr

/-- The route handler around the transaction: on any business failure the
transaction is rolled back — the returned store is the original one — and the
client receives a 400 carrying the failure. -/
def postOrder (store : Store) (uid : ℕ) (req : OrderReq) (now : ℤ)
    (tk : ℕ → String) : Store × OrderResponse :=
  match createOrder store uid req now tk with
  | .ok (s2, oid) => (s2, .created oid)
  | .error e => (store, .badRequest e)

/-- The read-time status derivation `softStatusPatch` of `routes/orders.js`. -/
def softStatusPatch (now : ℤ) (o : OrderRow) : OrderRow :=
  let o1 :=
    match o.mode, o.rentalEnd with
    | .rent, some re =>
      if re ≤ now ∧ o.status ≠ "Completed" then { o with status := "Completed" }
      else if now < re ∧ o.status ≠ "Active" ∧ o.status ≠ "Completed" then
        { o with status := "Active" }
      else o
    | _, _ => o
  let o2 :=
    match o1.deliveryEta with
    | some eta =>
      if o1.mode = .buy ∧ o1.status = "Pending" ∧ eta ≤ now then
        { o1 with status := "Delivered" }
      else o1
    | none => o1
  if o2.mode = .gift ∧ o2.status ≠ "Delivered" then { o2 with status := "Delivered" } else o2

/-- `GET /api/orders/:id`: the order scoped to the user, with its items,
status soft-patched.  Prices come from `order_items`, never from `books`. -/
def getOrder (store : Store) (oid : ℕ) (uid : ℕ) (now : ℤ) :
    Option (OrderRow × List OrderItemRow) :=
  match store.orders.find? (fun o => o.id = oid ∧ o.userId = uid) with
  | none => none
  | some o =>
    some (softStatusPatch now o, store.orderItems.filter (fun oi => oi.orderId = oid))

/-- Has the optional timestamp passed (`x IS NOT NULL AND x <= NOW()`)? -/
def tsPassed (now : ℤ) (t : Option ℤ) : Bool :=
  match t with
  | some v => v ≤ now
  | none => false

/-- First bulk update of the background job in `server.js`: set Delivered for
Pending orders whose delivery ETA has passed. -/
def tickDeliver (now : ℤ) (o : OrderRow) : OrderRow :=
  if o.status = "Pending" ∧ tsPassed now o.deliveryEta then
    { o with status := "Delivered" }
  else o

/-- Second bulk update of the background job: set Completed for rent orders
whose rental end has passed and that are not already Completed. -/
def tickComplete (now : ℤ) (o : OrderRow) : OrderRow :=
  if o.mode = .rent ∧ tsPassed now o.rentalEnd ∧ o.status ≠ "Completed" then
    { o with status := "Completed" }
  else o

/-- One reconciliation tick of the `setInterval` job in `server.js`: the two
bulk `UPDATE`s run in sequence.  Both updates are row-local, so running them
table-wide in sequence equals composing them per row. -/
def tick (store : Store) (now : ℤ) : Store :=
  { store with orders := store.orders.map (fun o => tickComplete now (tickDeliver now o)) }

/-- How a grant of content access is labelled (`accessType` in the JSON). -/
inductive AccessKind where
  | purchase
  | rental
  | gift
deriving DecidableEq, Repr

/-- Why a 403 denial happened. -/
inductive DenyReason where
  | notOwned
  | rentalExpired
deriving DecidableEq, Repr

/-- The observable outcome of `GET /api/books/:bookId/read`: a grant with its
access kind (and echoed expiry for rentals), a 403 denial, or the 404 when
the book has no uploaded content. -/
inductive AccessOutcome where
  | granted (kind : AccessKind) (expiresAt : Option ℤ)
  | denied (reason : DenyReason)
  | contentUnavailable
deriving DecidableEq, Repr

/-- `ORDER BY created_at DESC LIMIT 1`: a row with maximal `created_at`
(keeping the earlier row on ties). -/
def pickLatest (l : List OrderRow) : Option OrderRow :=
  l.foldl (fun acc o =>
    match acc with
    | none => some o
    | some a => if a.createdAt < o.createdAt then some o else some a) none

/-- The direct-order query of the read route: completed-payment orders of
this user joined to an item for this book. -/
def completedOrdersFor (store : Store) (uid : ℕ) (bid : String) : List OrderRow :=
  store.orders.filter (fun o =>
    o.userId = uid ∧ o.paymentStatus = .completed ∧
    store.orderItems.any (fun oi => oi.orderId = o.id ∧ oi.bookId = bid))

/-- The gift query of the read route: any gift row for this book whose
recipient user id or recipient email matches, claimed or not. -/
def giftMatches (store : Store) (uid : ℕ) (email : String) (bid : String) : Bool :=
  store.gifts.any (fun g =>
    g.bookId = bid ∧ (g.recipientUserId = some uid ∨ g.recipientEmail = email))

/-- JavaScript truthiness of `content_url`. -/
def contentOk (b : Book) : Bool :=
  match b.contentUrl with
  | none => false
  | some s => s ≠ ""

/-- The content-access route `GET /api/books/:bookId/read`: latest completed
order first (purchase unconditional, rental until expiry), then gift rows;
the missing-content 404 is checked before the rental-expiry 403, and the
gift path never carries a rental end. -/
def readBook (store : Store) (uid : ℕ) (email : String) (bid : String) (now : ℤ) :
    AccessOutcome :=
  match findBook store.books bid with
  | none => .denied .notOwned
  | some b =>
    match pickLatest (completedOrdersFor store uid bid) with
    | some o =>
      if ¬ contentOk b then .contentUnavailable
      else if o.mode = .rent then
        let re := o.rentalEnd.getD 0
        if re < now then .denied .rentalExpired
        else .granted .rental (some re)
      else .granted .purchase none
    | none =>
      if giftMatches store uid email bid then
        if ¬ contentOk b then .contentUnavailable
        else .granted .gift none
      else .denied .notOwned

/-- An administrator price change (`UPDATE books SET price = ? WHERE id = ?`). -/
def setBookPrice (store : Store) (bid : String) (p : ℚ) : Store :=
  { store with
      books := store.books.map (fun b => if b.id = bid then { b with price := p } else b) }

/-- Total quantity requested for one book across the items of a request. -/
def totalQty : List ItemReq → String → ℤ
  | [], _ => 0
  | i :: rest, bid => (if i.bookId = bid then i.quantity else 0) + totalQty rest bid

/-- The catalog price of a book in a book list (0 if absent, only used on
present books). -/
def catalogPrice (books : List Book) (bid : String) : ℚ :=
  ((findBook books bid).map Book.price).getD 0

/-- The charged unit price for a book in the current catalog. -/
def chargedPrice (books : List Book) (mode : Mode) (rd : Option ℤ) (bid : String) : ℚ :=
  priceFor mode rd (catalogPrice books bid)

/-- Closed form of the processed-items list built by the checkout loop. -/
def processedOf (books : List Book) (mode : Mode) (rd : Option ℤ)
    (items : List ItemReq) : List PItem :=
  items.map (fun i => ⟨i.bookId, i.quantity, chargedPrice books mode rd i.bookId⟩)

/-- Closed form of the items subtotal accumulated by the checkout loop. -/
def itemsTotal (books : List Book) (mode : Mode) (rd : Option ℤ)
    (items : List ItemReq) : ℚ :=
  ((processedOf books mode rd items).map (fun p => p.price * (p.quantity : ℚ))).sum

/-- Closed form of the stock decrements a committed buy order applies. -/
def decStocks (books : List Book) (items : List ItemReq) : List Book :=
  books.map (fun b => { b with stock := b.stock - totalQty items b.id })

/-! ### Helper lemmas about the catalog list -/

theorem totalQty_nil (bid : String) : totalQty [] bid = 0 := rfl

theorem totalQty_cons (i : ItemReq) (rest : List ItemReq) (bid : String) :
    totalQty (i :: rest) bid =
      (if i.bookId = bid then i.quantity else 0) + totalQty rest bid := rfl

theorem findBook_map {f : Book → Book} (hf : ∀ b, (f b).id = b.id)
    (books : List Book) (bid : String) :
    findBook (books.map f) bid = (findBook books bid).map f := by
  induction books with
  | nil => rfl
  | cons b rest ih =>
    unfold findBook at *
    rw [List.map_cons]
    by_cases h : b.id = bid
    · rw [List.find?_cons_of_pos _ (by simp [hf, h]),
        List.find?_cons_of_pos _ (by simp [h])]
      rfl
    · rw [List.find?_cons_of_neg _ (by simp [hf, h]),
        List.find?_cons_of_neg _ (by simp [h])]
      exact ih

theorem updateStock_id (b : Book) (bid : String) (q : ℤ) :
    (if b.id = bid then { b with stock := b.stock - q } else b).id = b.id := by
  split <;> rfl

theorem findBook_updateStock (books : List Book) (x : String) (q : ℤ) (bid : String) :
    findBook (updateStock books x q) bid =
      (findBook books bid).map
        (fun b => if b.id = x then { b with stock := b.stock - q } else b) := by
  unfold updateStock
  exact findBook_map (fun b => updateStock_id b x q) books bid

theorem findBook_updateStock_isSome (books : List Book) (x : String) (q : ℤ)
    (bid : String) :
    (findBook (updateStock books x q) bid).isSome = (findBook books bid).isSome := by
  rw [findBook_updateStock]
  cases findBook books bid <;> rfl

theorem catalogPrice_updateStock (books : List Book) (x : String) (q : ℤ)
    (bid : String) :
    catalogPrice (updateStock books x q) bid = catalogPrice books bid := by
  unfold catalogPrice
  rw [findBook_updateStock]
  cases findBook books bid with
  | none => rfl
  | some b =>
    simp only [Option.map_some', Option.getD_some]
    split <;> rfl

theorem chargedPrice_updateStock (books : List Book) (x : String) (q : ℤ)
    (mode : Mode) (rd : Option ℤ) (bid : String) :
    chargedPrice (updateStock books x q) mode rd bid = chargedPrice books mode rd bid := by
  unfold chargedPrice
  rw [catalogPrice_updateStock]

theorem processedOf_updateStock (books : List Book) (x : String) (q : ℤ)
    (mode : Mode) (rd : Option ℤ) (items : List ItemReq) :
    processedOf (updateStock books x q) mode rd items = processedOf books mode rd items := by
  unfold processedOf
  apply List.map_congr_left
  intro i _
  rw [chargedPrice_updateStock]

theorem itemsTotal_updateStock (books : List Book) (x : String) (q : ℤ)
    (mode : Mode) (rd : Option ℤ) (items : List ItemReq) :
    itemsTotal (updateStock books x q) mode rd items = itemsTotal books mode rd items := by
  unfold itemsTotal
  rw [processedOf_updateStock]

theorem decStocks_nil (books : List Book) : decStocks books [] = books := by
  unfold decStocks totalQty
  simp

theorem decStocks_cons (books : List Book) (i : ItemReq) (rest : List ItemReq) :
    decStocks books (i :: rest) =
      decStocks (updateStock books i.bookId i.quantity) rest := by
  unfold decStocks updateStock
  rw [List.map_map]
  apply List.map_congr_left
  intro b _
  simp only [Function.comp_apply, totalQty]
  by_cases h : b.id = i.bookId
  · rw [if_pos h, if_pos h.symm]
    cases b
    simp only [Book.mk.injEq, and_true, true_and]
    ring
  · rw [if_neg h, if_neg (fun hc => h hc.symm)]
    cases b
    simp only [Book.mk.injEq, and_true, true_and]
    ring

theorem totalQty_nonneg (items : List ItemReq)
    (hval : ∀ i ∈ items, 0 < i.quantity) (bid : String) :
    0 ≤ totalQty items bid := by
  induction items with
  | nil => simp [totalQty]
  | cons i rest ih =>
    have hi := hval i (by simp)
    have hr : 0 ≤ totalQty rest bid :=
      ih (fun j hj => hval j (List.mem_cons_of_mem _ hj))
    unfold totalQty
    split
    · omega
    · omega

theorem totalQty_mem_le (items : List ItemReq) (i : ItemReq) (hmem : i ∈ items)
    (hval : ∀ j ∈ items, 0 < j.quantity) :
    i.quantity ≤ totalQty items i.bookId := by
  induction items with
  | nil => cases hmem
  | cons j rest ih =>
    have hr : 0 ≤ totalQty rest i.bookId :=
      totalQty_nonneg rest (fun k hk => hval k (List.mem_cons_of_mem _ hk)) _
    rcases List.mem_cons.mp hmem with h | h
    · subst h
      unfold totalQty
      rw [if_pos rfl]
      omega
    · have := ih h (fun k hk => hval k (List.mem_cons_of_mem _ hk))
      unfold totalQty
      split
      · have hj := hval j (by simp)
        omega
      · omega

theorem chargedPrice_of_find {books : List Book} {bid : String} {bk : Book}
    (hf : findBook books bid = some bk) (mode : Mode) (rd : Option ℤ) :
    chargedPrice books mode rd bid = priceFor mode rd bk.price := by
  unfold chargedPrice catalogPrice
  rw [hf]
  rfl

theorem processedOf_cons (books : List Book) (mode : Mode) (rd : Option ℤ)
    (i : ItemReq) (rest : List ItemReq) :
    processedOf books mode rd (i :: rest) =
      ⟨i.bookId, i.quantity, chargedPrice books mode rd i.bookId⟩ ::
        processedOf books mode rd rest := rfl

theorem itemsTotal_cons (books : List Book) (mode : Mode) (rd : Option ℤ)
    (i : ItemReq) (rest : List ItemReq) :
    itemsTotal books mode rd (i :: rest) =
      chargedPrice books mode rd i.bookId * (i.quantity : ℚ) +
        itemsTotal books mode rd rest := by
  unfold itemsTotal
  rw [processedOf_cons]
  simp

/-- Inversion of a successful checkout loop: the returned catalog, subtotal
and processed items are the closed forms. -/
theorem processItems_ok_inv (mode : Mode) (rd : Option ℤ) :
    ∀ (items : List ItemReq) (books : List Book) (total : ℚ) (acc : List PItem)
      {b2 : List Book} {t2 : ℚ} {pis : List PItem},
    processItems mode rd items books total acc = .ok (b2, t2, pis) →
    b2 = (if mode = .buy then decStocks books items else books) ∧
    t2 = total + itemsTotal books mode rd items ∧
    pis = acc ++ processedOf books mode rd items := by
  intro items
  induction items with
  | nil =>
    intro books total acc b2 t2 pis h
    unfold processItems at h
    simp only [Except.ok.injEq, Prod.mk.injEq] at h
    obtain ⟨hb, ht, hp⟩ := h
    refine ⟨?_, ?_, ?_⟩
    · rw [← hb, decStocks_nil]
      split <;> rfl
    · rw [← ht]
      simp [itemsTotal, processedOf]
    · rw [← hp]
      simp [processedOf]
  | cons i rest ih =>
    intro books total acc b2 t2 pis h
    unfold processItems at h
    by_cases hv : i.bookId = "" ∨ i.quantity ≤ 0
    · rw [if_pos hv] at h
      simp at h
    · rw [if_neg hv] at h
      cases hf : findBook books i.bookId with
      | none =>
        rw [hf] at h
        simp at h
      | some bk =>
        rw [hf] at h
        dsimp only at h
        by_cases hm : mode = .buy
        · rw [if_pos hm] at h
          by_cases hs : bk.stock < i.quantity
          · rw [if_pos hs] at h
            simp at h
          · rw [if_neg hs] at h
            obtain ⟨hb, ht, hp⟩ := ih _ _ _ h
            refine ⟨?_, ?_, ?_⟩
            · rw [hb, if_pos hm, if_pos hm, decStocks_cons]
            · rw [ht, itemsTotal_updateStock, itemsTotal_cons,
                chargedPrice_of_find hf]
              ring
            · rw [hp, processedOf_updateStock, processedOf_cons,
                chargedPrice_of_find hf, List.append_assoc]
              rfl
        · rw [if_neg hm] at h
          obtain ⟨hb, ht, hp⟩ := ih _ _ _ h
          refine ⟨?_, ?_, ?_⟩
          · rw [hb, if_neg hm, if_neg hm]
          · rw [ht, itemsTotal_cons, chargedPrice_of_find hf]
            ring
          · rw [hp, processedOf_cons, chargedPrice_of_find hf, List.append_assoc]
            rfl

theorem findBook_some {books : List Book} {bid : String} {bk : Book}
    (h : findBook books bid = some bk) : bk ∈ books ∧ bk.id = bid := by
  refine ⟨List.mem_of_find?_eq_some h, ?_⟩
  have := List.find?_some h
  simpa using this

theorem findBook_of_mem_nodup {books : List Book}
    (hnd : (books.map Book.id).Nodup) {b : Book} (hb : b ∈ books) :
    findBook books b.id = some b := by
  induction books with
  | nil => cases hb
  | cons c rest ih =>
    rcases List.mem_cons.mp hb with rfl | hmem
    · unfold findBook
      rw [List.find?_cons_of_pos _ (by simp)]
    · have hcid : c.id ≠ b.id := by
        intro he
        have hmm : b.id ∈ rest.map Book.id := List.mem_map_of_mem _ hmem
        rw [← he] at hmm
        exact (List.nodup_cons.mp hnd).1 hmm
      unfold findBook
      rw [List.find?_cons_of_neg _ (by simp [hcid])]
      exact ih (List.nodup_cons.mp hnd).2 hmem

theorem updateStock_map_id (books : List Book) (x : String) (q : ℤ) :
    (updateStock books x q).map Book.id = books.map Book.id := by
  unfold updateStock
  rw [List.map_map]
  apply List.map_congr_left
  intro b _
  exact updateStock_id b x q

/-- If every item is valid, every referenced book exists, and (buy mode) every
book's stock covers the total requested quantity, the checkout loop
succeeds. -/
theorem processItems_isOk (mode : Mode) (rd : Option ℤ) :
    ∀ (items : List ItemReq) (books : List Book) (total : ℚ) (acc : List PItem),
    (∀ i ∈ items, i.bookId ≠ "" ∧ 0 < i.quantity) →
    (∀ i ∈ items, (findBook books i.bookId).isSome = true) →
    (mode = .buy → ∀ b ∈ books, totalQty items b.id ≤ b.stock) →
    ∃ r, processItems mode rd items books total acc = .ok r := by
  intro items
  induction items with
  | nil =>
    intro books total acc _ _ _
    exact ⟨_, rfl⟩
  | cons i rest ih =>
    intro books total acc hval hex hstock
    have hvi := hval i (by simp)
    have hv : ¬(i.bookId = "" ∨ i.quantity ≤ 0) := by
      push_neg
      exact ⟨hvi.1, by omega⟩
    obtain ⟨bk, hbk⟩ := Option.isSome_iff_exists.mp (hex i (by simp))
    unfold processItems
    rw [if_neg hv, hbk]
    dsimp only
    by_cases hm : mode = .buy
    · have hmem := findBook_some hbk
      have hqle : i.quantity ≤ totalQty (i :: rest) i.bookId :=
        totalQty_mem_le _ i (by simp) (fun j hj => (hval j hj).2)
      have hble := hstock hm bk hmem.1
      rw [hmem.2] at hble
      have hns : ¬(bk.stock < i.quantity) := by omega
      rw [if_pos hm, if_neg hns]
      apply ih
      · intro j hj
        exact hval j (List.mem_cons_of_mem _ hj)
      · intro j hj
        rw [findBook_updateStock_isSome]
        exact hex j (List.mem_cons_of_mem _ hj)
      · intro _ b2 hb2
        obtain ⟨b0, hb0, rfl⟩ := List.mem_map.mp hb2
        have hb0le := hstock hm b0 hb0
        by_cases hid : b0.id = i.bookId
        · rw [if_pos hid]
          have hsplit : totalQty (i :: rest) b0.id = i.quantity + totalQty rest b0.id := by
            rw [totalQty_cons, if_pos hid.symm]
          dsimp only
          omega
        · rw [if_neg hid]
          have hsplit : totalQty (i :: rest) b0.id = totalQty rest b0.id := by
            rw [totalQty_cons, if_neg (fun hc => hid hc.symm)]
            ring
          omega
    · rw [if_neg hm]
      apply ih
      · intro j hj
        exact hval j (List.mem_cons_of_mem _ hj)
      · intro j hj
        exact hex j (List.mem_cons_of_mem _ hj)
      · intro hc
        exact absurd hc hm

/-- If some book's stock cannot cover the total requested quantity, the buy
checkout loop fails with `InsufficientStock` naming an actually overdrawn
book. -/
theorem processItems_insufficient (rd : Option ℤ) :
    ∀ (items : List ItemReq) (books : List Book) (total : ℚ) (acc : List PItem),
    (∀ i ∈ items, i.bookId ≠ "" ∧ 0 < i.quantity) →
    (∀ i ∈ items, (findBook books i.bookId).isSome = true) →
    (books.map Book.id).Nodup →
    (∀ b ∈ books, 0 ≤ b.stock) →
    (∃ b ∈ books, b.stock < totalQty items b.id) →
    ∃ bid bk,
      processItems .buy rd items books total acc = .error (.insufficientStock bid) ∧
      findBook books bid = some bk ∧ bk.stock < totalQty items bid := by
  intro items
  induction items with
  | nil =>
    intro books total acc _ _ _ hpos hover
    obtain ⟨b, hb, hlt⟩ := hover
    have := hpos b hb
    rw [totalQty_nil] at hlt
    omega
  | cons i rest ih =>
    intro books total acc hval hex hnd hpos hover
    have hvi := hval i (by simp)
    have hv : ¬(i.bookId = "" ∨ i.quantity ≤ 0) := by
      push_neg
      exact ⟨hvi.1, by omega⟩
    obtain ⟨bk, hbk⟩ := Option.isSome_iff_exists.mp (hex i (by simp))
    by_cases hs : bk.stock < i.quantity
    · refine ⟨i.bookId, bk, ?_, hbk, ?_⟩
      · unfold processItems
        rw [if_neg hv, hbk]
        dsimp only
        rw [if_pos rfl, if_pos hs]
      · have hqle : i.quantity ≤ totalQty (i :: rest) i.bookId :=
          totalQty_mem_le _ i (by simp) (fun j hj => (hval j hj).2)
        omega
    · have hrec := ih (updateStock books i.bookId i.quantity) (total +
        priceFor .buy rd bk.price * (i.quantity : ℚ))
        (acc ++ [⟨i.bookId, i.quantity, priceFor .buy rd bk.price⟩])
        (fun j hj => hval j (List.mem_cons_of_mem _ hj))
        (fun j hj => by
          rw [findBook_updateStock_isSome]
          exact hex j (List.mem_cons_of_mem _ hj))
        (by rw [updateStock_map_id]; exact hnd)
        ?hpos2 ?hover2
      case hpos2 =>
        intro b2 hb2
        obtain ⟨b0, hb0, rfl⟩ := List.mem_map.mp hb2
        by_cases hid : b0.id = i.bookId
        · rw [if_pos hid]
          have hfb0 : findBook books i.bookId = some b0 := by
            rw [← hid]
            exact findBook_of_mem_nodup hnd hb0
          rw [hbk] at hfb0
          injection hfb0 with hfb0
          subst hfb0
          dsimp only
          omega
        · rw [if_neg hid]
          exact hpos b0 hb0
      case hover2 =>
        obtain ⟨b, hb, hlt⟩ := hover
        refine ⟨if b.id = i.bookId then
          { b with stock := b.stock - i.quantity } else b,
          List.mem_map_of_mem _ hb, ?_⟩
        by_cases hid : b.id = i.bookId
        · rw [if_pos hid]
          have hsplit : totalQty (i :: rest) b.id = i.quantity + totalQty rest b.id := by
            rw [totalQty_cons, if_pos hid.symm]
          dsimp only
          omega
        · rw [if_neg hid]
          have hsplit : totalQty (i :: rest) b.id = totalQty rest b.id := by
            rw [totalQty_cons, if_neg (fun hc => hid hc.symm)]
            ring
          omega
      obtain ⟨bid, bk2, hrun, hfind2, hlt2⟩ := hrec
      rw [findBook_updateStock] at hfind2
      cases hfb : findBook books bid with
      | none =>
        rw [hfb] at hfind2
        cases hfind2
      | some bk0 =>
        rw [hfb] at hfind2
        simp only [Option.map_some'] at hfind2
        have hbk0id := (findBook_some hfb).2
        refine ⟨bid, bk0, ?_, hfb, ?_⟩
        · unfold processItems
          rw [if_neg hv, hbk]
          dsimp only
          rw [if_pos rfl, if_neg hs]
          exact hrun
        · have hsplit : totalQty (i :: rest) bid =
              (if i.bookId = bid then i.quantity else 0) + totalQty rest bid :=
            totalQty_cons i rest bid
          by_cases hid : bk0.id = i.bookId
          · rw [if_pos hid] at hfind2
            injection hfind2 with hfind2
            rw [← hfind2] at hlt2
            dsimp only at hlt2
            rw [hsplit, if_pos (by rw [← hid, hbk0id])]
            omega
          · rw [if_neg hid] at hfind2
            injection hfind2 with hfind2
            rw [← hfind2] at hlt2
            rw [hsplit, if_neg (by rw [← hbk0id]; exact fun hc => hid hc.symm)]
            omega

/-- Characterization of a committed checkout: the new store is the old one
with stock decremented (buy only), the new order row, its item rows priced
from the creation-time catalog, and (gift mode) the gift rows appended. -/
theorem createOrder_ok_inv {store : Store} {uid : ℕ} {req : OrderReq} {now : ℤ}
    {tk : ℕ → String} {s2 : Store} {oid : ℕ}
    (hok : createOrder store uid req now tk = .ok (s2, oid)) :
    oid = store.nextOrderId ∧
    s2 = { store with
            books :=
              if req.mode = .buy then decStocks store.books req.items else store.books
            orders := store.orders ++ [newOrderRow store.nextOrderId uid req now
              (itemsTotal store.books req.mode (priceDays req.mode req.rentalDuration)
                req.items)]
            orderItems := store.orderItems ++
              (processedOf store.books req.mode (priceDays req.mode req.rentalDuration)
                req.items).map
                (fun p => OrderItemRow.mk store.nextOrderId p.bookId p.quantity p.price)
            gifts := store.gifts ++ newGiftRows store store.nextOrderId req now tk
            nextOrderId := store.nextOrderId + 1 } := by
  unfold createOrder at hok
  by_cases h1 : req.items = []
  · rw [if_pos h1] at hok
    simp at hok
  · rw [if_neg h1] at hok
    by_cases h2 : req.mode = .gift ∧ normStr req.giftEmail = none
    · rw [if_pos h2] at hok
      simp at hok
    · rw [if_neg h2] at hok
      cases hp : processItems req.mode (priceDays req.mode req.rentalDuration)
          req.items store.books 0 [] with
      | error e =>
        rw [hp] at hok
        simp at hok
      | ok r =>
        obtain ⟨books2, sub, pis⟩ := r
        rw [hp] at hok
        dsimp only at hok
        obtain ⟨hb, ht, hpis⟩ := processItems_ok_inv _ _ _ _ _ _ hp
        simp only [Except.ok.injEq, Prod.mk.injEq] at hok
        obtain ⟨hs2, hoid⟩ := hok
        subst hb
        subst ht
        subst hpis
        refine ⟨hoid.symm, ?_⟩
        rw [← hs2]
        simp

/-- The checkout commits whenever the request is well-formed, the books
exist, and (buy mode) stock suffices. -/
theorem createOrder_isOk (store : Store) (uid : ℕ) (req : OrderReq) (now : ℤ)
    (tk : ℕ → String)
    (h1 : req.items ≠ [])
    (h2 : ¬(req.mode = .gift ∧ normStr req.giftEmail = none))
    (hval : ∀ i ∈ req.items, i.bookId ≠ "" ∧ 0 < i.quantity)
    (hex : ∀ i ∈ req.items, (findBook store.books i.bookId).isSome = true)
    (hstock : req.mode = .buy → ∀ b ∈ store.books, totalQty req.items b.id ≤ b.stock) :
    ∃ s2 oid, createOrder store uid req now tk = .ok (s2, oid) := by
  obtain ⟨r, hr⟩ := processItems_isOk req.mode (priceDays req.mode req.rentalDuration)
    req.items store.books 0 [] hval hex hstock
  obtain ⟨books2, sub, pis⟩ := r
  unfold createOrder
  rw [if_neg h1, if_neg h2, hr]
  exact ⟨_, _, rfl⟩

/-- A buy checkout with an overdrawn book fails with `InsufficientStock`
naming an overdrawn book. -/
theorem createOrder_insufficient (store : Store) (uid : ℕ) (req : OrderReq)
    (now : ℤ) (tk : ℕ → String)
    (h1 : req.items ≠ [])
    (hmode : req.mode = .buy)
    (hval : ∀ i ∈ req.items, i.bookId ≠ "" ∧ 0 < i.quantity)
    (hex : ∀ i ∈ req.items, (findBook store.books i.bookId).isSome = true)
    (hnd : (store.books.map Book.id).Nodup)
    (hpos : ∀ b ∈ store.books, 0 ≤ b.stock)
    (hover : ∃ b ∈ store.books, b.stock < totalQty req.items b.id) :
    ∃ bid bk,
      createOrder store uid req now tk = .error (.insufficientStock bid) ∧
      findBook store.books bid = some bk ∧ bk.stock < totalQty req.items bid := by
  obtain ⟨bid, bk, hrun, hfb, hlt⟩ :=
    processItems_insufficient (priceDays req.mode req.rentalDuration) req.items
      store.books 0 [] hval hex hnd hpos hover
  refine ⟨bid, bk, ?_, hfb, hlt⟩
  unfold createOrder
  rw [if_neg h1, if_neg (by rw [hmode]; simp)]
  rw [hmode] at hrun ⊢
  rw [hrun]

/-! ### Reconciliation tick lemmas -/

theorem tick_step_idem (now : ℤ) (o : OrderRow) :
    tickComplete now (tickDeliver now
      (tickComplete now (tickDeliver now o))) =
    tickComplete now (tickDeliver now o) := by
  unfold tickComplete tickDeliver
  split_ifs <;> simp_all

/-! ### Read-route lemmas -/

theorem pickLatest_nil : pickLatest [] = none := rfl

/-! ## Claim theorems -/

/-- Claim C9: the background reconciliation tick is idempotent — running the
two bulk updates twice in a row leaves every order exactly as running them
once does, so no status oscillates. -/
theorem reconciliation_tick_idempotent (store : Store) (now : ℤ) :
    tick (tick store now) now = tick store now := by
  unfold tick
  simp only [List.map_map]
  congr 1
  apply List.map_congr_left
  intro o _
  exact tick_step_idem now o

/-- Claim C1 (amended): content access is decided by the most recently
created completed-payment order containing the book.  If that order has mode
buy, access is granted with kind purchase; if it has mode rent, access is
granted with kind rental and the expiry echoed while the rental end has not
yet passed, and denied with reason rental-expired once it has passed. -/
theorem read_access_decided_by_latest_completed_order
    (store : Store) (uid : ℕ) (email bid : String) (now : ℤ) (b : Book)
    (o : OrderRow)
    (hb : findBook store.books bid = some b)
    (hcontent : contentOk b = true)
    (hlatest : pickLatest (completedOrdersFor store uid bid) = some o) :
    (o.mode = .buy → readBook store uid email bid now = .granted .purchase none) ∧
    (∀ re, o.mode = .rent → o.rentalEnd = some re →
      (now ≤ re → readBook store uid email bid now = .granted .rental (some re)) ∧
      (re < now → readBook store uid email bid now = .denied .rentalExpired)) := by
  unfold readBook
  rw [hb]
  dsimp only
  rw [hlatest]
  dsimp only
  rw [hcontent]
  constructor
  · intro hm
    rw [hm]
    rfl
  · intro re hm hre
    rw [hm, hre, if_pos rfl]
    simp only [Option.getD_some]
    constructor
    · intro hle
      rw [if_neg (not_lt.mpr hle)]
      simp
    · intro hlt
      rw [if_pos hlt]
      simp

/-- The book, orders and items of the C1 scenario: the user completed a buy
order for the book at time 10, then completed a rent order for the same book
at time 20 whose rental ended at time 50. -/
def c1Book : Book := ⟨"b1", 400, 10, some "https://cdn/x.pdf"⟩

def c1BuyOrder : OrderRow :=
  ⟨1, 1, .buy, 430, none, none, none, none, some "standard", 30, 0, "Pending",
    10, some 15, .completed⟩

def c1RentOrder : OrderRow :=
  ⟨2, 1, .rent, 140, none, some 30, some 50, none, none, 0, 0, "Active",
    20, none, .completed⟩

def c1Store : Store :=
  ⟨[c1Book], [], [c1BuyOrder, c1RentOrder],
    [⟨1, "b1", 1, 400⟩, ⟨2, "b1", 1, 140⟩], [], 3⟩

/-- Claim C1 is false as stated: this user has a completed buy-mode order
containing the book, yet at time 100 the route denies with rental-expired,
because the later-created expired rental is the row the LIMIT-1 query
returns. -/
theorem buy_access_shadowed_by_later_expired_rental :
    (∃ o ∈ c1Store.orders, o.mode = .buy ∧ o.paymentStatus = .completed ∧
      ∃ oi ∈ c1Store.orderItems, oi.orderId = o.id ∧ oi.bookId = "b1") ∧
    readBook c1Store 1 "u@x.com" "b1" 100 = .denied .rentalExpired ∧
    readBook c1Store 1 "u@x.com" "b1" 100 ≠ .granted .purchase none := by
  refine ⟨by decide, by decide, by decide⟩

theorem read_access_decided_by_latest_completed_order_witness :
    readBook c1Store 1 "u@x.com" "b1" 100 = .denied .rentalExpired ∧
    readBook c1Store 1 "u@x.com" "b1" 40 = .granted .rental (some 50) := by
  have h := read_access_decided_by_latest_completed_order c1Store 1 "u@x.com" "b1"
    100 c1Book c1RentOrder (by decide) (by decide) (by decide)
  have h2 := read_access_decided_by_latest_completed_order c1Store 1 "u@x.com" "b1"
    40 c1Book c1RentOrder (by decide) (by decide) (by decide)
  exact ⟨(h.2 50 rfl rfl).2 (by decide), (h2.2 50 rfl rfl).1 (by decide)⟩

/-- Claim C5: when the user has no completed-payment order containing the
book, the read route grants with access kind gift exactly when some gift row
for the book matches the user id or email — claiming is not required — and
denies with not-owned otherwise. -/
theorem gift_row_grants_read_access_iff
    (store : Store) (uid : ℕ) (email bid : String) (now : ℤ) (b : Book)
    (hb : findBook store.books bid = some b)
    (hcontent : contentOk b = true)
    (hnoorder : completedOrdersFor store uid bid = []) :
    (readBook store uid email bid now = .granted .gift none ↔
      ∃ g ∈ store.gifts, g.bookId = bid ∧
        (g.recipientUserId = some uid ∨ g.recipientEmail = email)) ∧
    ((¬ ∃ g ∈ store.gifts, g.bookId = bid ∧
        (g.recipientUserId = some uid ∨ g.recipientEmail = email)) →
      readBook store uid email bid now = .denied .notOwned) := by
  unfold readBook
  rw [hb]
  dsimp only
  rw [hnoorder, pickLatest_nil]
  dsimp only
  have hmatch : giftMatches store uid email bid = true ↔
      ∃ g ∈ store.gifts, g.bookId = bid ∧
        (g.recipientUserId = some uid ∨ g.recipientEmail = email) := by
    unfold giftMatches
    simp
  constructor
  · constructor
    · intro hgr
      by_cases hg : giftMatches store uid email bid = true
      · exact hmatch.mp hg
      · rw [if_neg (by simpa using hg)] at hgr
        cases hgr
    · intro hex
      rw [if_pos (hmatch.mpr hex), hcontent]
      rfl
  · intro hnex
    rw [if_neg (by
      intro hg
      exact hnex (hmatch.mp hg))]

/-- The C5 scenario: one unclaimed gift row for the book addressed to the
user by email; the user has no orders at all. -/
def c5Store : Store :=
  ⟨[⟨"b1", 300, 5, some "https://cdn/b1.pdf"⟩], [], [], [],
    [⟨9, "b1", 1, "r@x.com", "tok1", none, none, 0⟩], 1⟩

theorem gift_row_grants_read_access_iff_witness :
    readBook c5Store 4 "r@x.com" "b1" 50 = .granted .gift none ∧
    readBook c5Store 4 "other@x.com" "b1" 50 = .denied .notOwned := by
  have h := gift_row_grants_read_access_iff c5Store 4 "r@x.com" "b1" 50
    ⟨"b1", 300, 5, some "https://cdn/b1.pdf"⟩ (by decide) (by decide) (by decide)
  have h2 := gift_row_grants_read_access_iff c5Store 4 "other@x.com" "b1" 50
    ⟨"b1", 300, 5, some "https://cdn/b1.pdf"⟩ (by decide) (by decide) (by decide)
  refine ⟨h.1.mpr ⟨⟨9, "b1", 1, "r@x.com", "tok1", none, none, 0⟩, by decide, by decide⟩, ?_⟩
  exact h2.2 (by decide)

/-- Claim C10: the gift entitlement path never consults payment status —
even when no order in the store has a completed payment, a matching gift row
grants read access — whereas the direct-order path requires a completed
payment, so with no gift rows and no completed payment the route denies. -/
theorem gift_access_ignores_payment_status :
    (∀ (store : Store) (uid : ℕ) (email bid : String) (now : ℤ) (b : Book)
      (g : GiftRow),
      findBook store.books bid = some b →
      contentOk b = true →
      (∀ o ∈ store.orders, o.paymentStatus ≠ .completed) →
      g ∈ store.gifts → g.bookId = bid →
      (g.recipientUserId = some uid ∨ g.recipientEmail = email) →
      readBook store uid email bid now = .granted .gift none) ∧
    (∀ (store : Store) (uid : ℕ) (email bid : String) (now : ℤ),
      (∀ o ∈ store.orders, o.paymentStatus ≠ .completed) →
      store.gifts = [] →
      readBook store uid email bid now = .denied .notOwned) := by
  have hnone : ∀ (store : Store) (uid : ℕ) (bid : String),
      (∀ o ∈ store.orders, o.paymentStatus ≠ .completed) →
      completedOrdersFor store uid bid = [] := by
    intro store uid bid hno
    unfold completedOrdersFor
    rw [List.filter_eq_nil_iff]
    intro o ho
    simp only [Bool.not_eq_true, decide_eq_false_iff_not]
    intro hc
    exact hno o ho hc.2.1
  constructor
  · intro store uid email bid now b g hb hcontent hno hg hgb hgr
    unfold readBook
    rw [hb]
    dsimp only
    rw [hnone store uid bid hno, pickLatest_nil]
    dsimp only
    rw [if_pos (by
      unfold giftMatches
      rw [List.any_eq_true]
      exact ⟨g, hg, by simp [hgb, hgr]⟩), hcontent]
    rfl
  · intro store uid email bid now hno hgifts
    unfold readBook
    cases hb : findBook store.books bid with
    | none => rfl
    | some b =>
      dsimp only
      rw [hnone store uid bid hno, pickLatest_nil]
      dsimp only
      rw [if_neg (by
        unfold giftMatches
        rw [hgifts]
        simp)]

/-- The C10 scenario: the gift order exists with payment still pending, the
gift row is unclaimed, the recipient matches by email. -/
def c10Store : Store :=
  ⟨[⟨"b1", 300, 5, some "https://cdn/b1.pdf"⟩], [],
    [⟨9, 2, .gift, 300, none, none, none, some "r@x.com", none, 0, 0,
      "Delivered", 0, none, .pending⟩],
    [⟨9, "b1", 1, 300⟩],
    [⟨9, "b1", 1, "r@x.com", "t1", none, none, 0⟩], 10⟩

/-- The same state without the gift rows. -/
def c10StoreNoGifts : Store :=
  ⟨[⟨"b1", 300, 5, some "https://cdn/b1.pdf"⟩], [],
    [⟨9, 2, .gift, 300, none, none, none, some "r@x.com", none, 0, 0,
      "Delivered", 0, none, .pending⟩],
    [⟨9, "b1", 1, 300⟩], [], 10⟩

theorem gift_access_ignores_payment_status_witness :
    readBook c10Store 4 "r@x.com" "b1" 50 = .granted .gift none ∧
    readBook c10StoreNoGifts 4 "r@x.com" "b1" 50 = .denied .notOwned := by
  refine ⟨gift_access_ignores_payment_status.1 c10Store 4 "r@x.com" "b1" 50
    ⟨"b1", 300, 5, some "https://cdn/b1.pdf"⟩
    ⟨9, "b1", 1, "r@x.com", "t1", none, none, 0⟩
    (by decide) (by decide) (by decide) (by decide) (by decide) (by decide), ?_⟩
  exact gift_access_ignores_payment_status.2 c10StoreNoGifts 4 "r@x.com" "b1" 50
    (by decide) (by decide)

/-- Claim C2: for a buy order whose items are valid and whose books all
exist, (a) if every book's stock covers the total requested quantity the
transaction commits, each book's stock becomes its prior stock minus the
ordered quantity, and no stock is negative; (b) if some book's stock cannot
cover the total requested quantity the whole transaction rolls back — the
store is returned unchanged, so no stock change and no order, item or gift
row — and the client receives InsufficientStock naming an overdrawn book. -/
theorem buy_stock_decrement_or_rollback
    (store : Store) (uid : ℕ) (req : OrderReq) (now : ℤ) (tk : ℕ → String)
    (hmode : req.mode = .buy)
    (hne : req.items ≠ [])
    (hval : ∀ i ∈ req.items, i.bookId ≠ "" ∧ 0 < i.quantity)
    (hex : ∀ i ∈ req.items, (findBook store.books i.bookId).isSome = true)
    (hnd : (store.books.map Book.id).Nodup)
    (hpos : ∀ b ∈ store.books, 0 ≤ b.stock) :
    ((∀ b ∈ store.books, totalQty req.items b.id ≤ b.stock) →
      ∃ s2 oid, postOrder store uid req now tk = (s2, .created oid) ∧
        s2.books = decStocks store.books req.items ∧
        ∀ b ∈ s2.books, 0 ≤ b.stock) ∧
    ((∃ b ∈ store.books, b.stock < totalQty req.items b.id) →
      ∃ bid bk, postOrder store uid req now tk =
          (store, .badRequest (.insufficientStock bid)) ∧
        findBook store.books bid = some bk ∧
        bk.stock < totalQty req.items bid) := by
  constructor
  · intro hsuff
    obtain ⟨s2, oid, hok⟩ := createOrder_isOk store uid req now tk hne
      (fun hc => by rw [hmode] at hc; cases hc.1) hval hex (fun _ => hsuff)
    obtain ⟨hoid, hs2⟩ := createOrder_ok_inv hok
    refine ⟨s2, oid, ?_, ?_, ?_⟩
    · unfold postOrder
      rw [hok]
    · rw [hs2]
      dsimp only
      rw [if_pos hmode]
    · intro b hb
      rw [hs2] at hb
      dsimp only at hb
      rw [if_pos hmode] at hb
      obtain ⟨b0, hb0, rfl⟩ := List.mem_map.mp hb
      have h1 := hsuff b0 hb0
      dsimp only
      omega
  · intro hover
    obtain ⟨bid, bk, herr, hfb, hlt⟩ := createOrder_insufficient store uid req
      now tk hne hmode hval hex hnd hpos hover
    refine ⟨bid, bk, ?_, hfb, hlt⟩
    unfold postOrder
    rw [herr]

/-- The C2 scenario stores: one book with stock 5 and one with stock 1. -/
def c2Store : Store :=
  ⟨[⟨"b1", 100, 5, some "u"⟩, ⟨"b2", 50, 1, some "v"⟩], [], [], [], [], 1⟩

def c2ReqOk : OrderReq := ⟨[⟨"b1", 2⟩, ⟨"b2", 1⟩], .buy, none, none, none, none⟩

def c2ReqOver : OrderReq := ⟨[⟨"b1", 2⟩, ⟨"b2", 2⟩], .buy, none, none, none, none⟩

theorem buy_stock_decrement_or_rollback_witness :
    (∃ s2 oid, postOrder c2Store 1 c2ReqOk 0 (fun n => toString n) = (s2, .created oid) ∧
      s2.books = decStocks c2Store.books c2ReqOk.items ∧
      ∀ b ∈ s2.books, 0 ≤ b.stock) ∧
    (∃ bid bk, postOrder c2Store 1 c2ReqOver 0 (fun n => toString n) =
        (c2Store, .badRequest (.insufficientStock bid)) ∧
      findBook c2Store.books bid = some bk ∧
      bk.stock < totalQty c2ReqOver.items bid) := by
  constructor
  · exact (buy_stock_decrement_or_rollback c2Store 1 c2ReqOk 0 (fun n => toString n)
      rfl (by decide) (by decide) (by decide) (by decide) (by decide)).1 (by decide)
  · exact (buy_stock_decrement_or_rollback c2Store 1 c2ReqOver 0 (fun n => toString n)
      rfl (by decide) (by decide) (by decide) (by decide) (by decide)).2 (by decide)

/-- Claim C3: a rent order charges, per item, the catalog price times 7/20
(0.35) when the priced duration is the default 30 days and times 11/20
(0.55) for any other duration; the order's rental end is the creation time
plus the requested duration (30 days when none is supplied); no shipping or
COD fee applies, and the stored total is the rounded sum of the charged
prices times quantities. -/
theorem rent_pricing_and_rental_end
    (store : Store) (uid : ℕ) (req : OrderReq) (now : ℤ) (tk : ℕ → String)
    (hmode : req.mode = .rent)
    (hne : req.items ≠ [])
    (hval : ∀ i ∈ req.items, i.bookId ≠ "" ∧ 0 < i.quantity)
    (hex : ∀ i ∈ req.items, (findBook store.books i.bookId).isSome = true) :
    ∃ s2 o, postOrder store uid req now tk = (s2, .created store.nextOrderId) ∧
      s2.orders = store.orders ++ [o] ∧
      o.rentalEnd = some (now + rentDays req.rentalDuration) ∧
      (req.rentalDuration = none → rentDays req.rentalDuration = 30) ∧
      o.shippingFee = 0 ∧
      o.codFee = 0 ∧
      s2.orderItems = store.orderItems ++ req.items.map (fun i =>
        OrderItemRow.mk store.nextOrderId i.bookId i.quantity
          (catalogPrice store.books i.bookId *
            (if rentDays req.rentalDuration = 30 then (7 : ℚ) / 20
             else (11 : ℚ) / 20))) ∧
      o.total = round2 ((req.items.map (fun i =>
        catalogPrice store.books i.bookId *
          (if rentDays req.rentalDuration = 30 then (7 : ℚ) / 20
           else (11 : ℚ) / 20) *
          (i.quantity : ℚ))).sum) := by
  obtain ⟨s2, oid, hok⟩ := createOrder_isOk store uid req now tk hne
    (fun hc => by rw [hmode] at hc; cases hc.1) hval hex
    (fun hc => by rw [hmode] at hc; cases hc)
  obtain ⟨hoid, hs2⟩ := createOrder_ok_inv hok
  subst hoid
  have hpd : priceDays req.mode req.rentalDuration = some (rentDays req.rentalDuration) := by
    unfold priceDays
    rw [if_pos hmode]
  have hcp : ∀ bid, chargedPrice store.books Mode.rent
      (priceDays Mode.rent req.rentalDuration) bid =
      catalogPrice store.books bid *
        (if rentDays req.rentalDuration = 30 then (7 : ℚ) / 20 else (11 : ℚ) / 20) := by
    intro bid
    unfold chargedPrice priceFor priceDays
    simp
  refine ⟨s2, newOrderRow store.nextOrderId uid req now
    (itemsTotal store.books req.mode (priceDays req.mode req.rentalDuration) req.items),
    ?_, ?_, ?_, ?_, ?_, ?_, ?_, ?_⟩
  · unfold postOrder
    rw [hok]
  · rw [hs2]
  · unfold newOrderRow
    dsimp only
    rw [if_pos hmode]
  · intro hd
    unfold rentDays
    rw [hd]
  · unfold newOrderRow buyShippingFee
    dsimp only
    rw [hmode]
    simp
  · unfold newOrderRow buyCodFee
    dsimp only
    rw [hmode]
    simp
  · rw [hs2]
    dsimp only
    rw [hmode]
    unfold processedOf
    rw [List.map_map]
    congr 1
    apply List.map_congr_left
    intro i _
    dsimp only [Function.comp_apply]
    rw [hcp]
  · unfold newOrderRow buyShippingFee buyCodFee
    dsimp only
    rw [hmode]
    simp only [reduceCtorEq, if_false, and_false, add_zero]
    congr 1
    unfold itemsTotal processedOf
    rw [List.map_map]
    congr 1
    apply List.map_congr_left
    intro i _
    dsimp only [Function.comp_apply]
    rw [hcp]

/-- The C3 scenario: a book priced 400.00, rented at the default duration. -/
def c3Store : Store := ⟨[⟨"b1", 400, 10, some "u"⟩], [], [], [], [], 1⟩

def c3Req : OrderReq := ⟨[⟨"b1", 1⟩], .rent, none, none, none, none⟩

theorem rent_pricing_and_rental_end_witness :
    ((postOrder c3Store 1 c3Req 0 (fun n => toString n)).1.orderItems.map
        (fun oi => oi.price) = [140] ∧
      (postOrder c3Store 1 c3Req 0 (fun n => toString n)).1.orders.map
        (fun o => (o.total, o.rentalEnd)) = [(140, some 30)]) ∧
    ∃ s2 o, postOrder c3Store 1 c3Req 0 (fun n => toString n) = (s2, .created 1) ∧
      s2.orders = c3Store.orders ++ [o] ∧
      o.rentalEnd = some (0 + rentDays c3Req.rentalDuration) ∧
      (c3Req.rentalDuration = none → rentDays c3Req.rentalDuration = 30) ∧
      o.shippingFee = 0 ∧
      o.codFee = 0 ∧
      s2.orderItems = c3Store.orderItems ++ c3Req.items.map (fun i =>
        OrderItemRow.mk 1 i.bookId i.quantity
          (catalogPrice c3Store.books i.bookId *
            (if rentDays c3Req.rentalDuration = 30 then (7 : ℚ) / 20
             else (11 : ℚ) / 20))) ∧
      o.total = round2 ((c3Req.items.map (fun i =>
        catalogPrice c3Store.books i.bookId *
          (if rentDays c3Req.rentalDuration = 30 then (7 : ℚ) / 20
           else (11 : ℚ) / 20) *
          (i.quantity : ℚ))).sum) :=
  ⟨⟨by
      simp [postOrder, createOrder, processItems, priceDays, rentDays, priceFor, normStr,
        findBook, newOrderRow, buyShippingFee, buyCodFee, round2, itemsTotal, processedOf,
        chargedPrice, catalogPrice, c3Store, c3Req, updateStock, newGiftRows, List.find?]
      norm_num,
    by
      simp [postOrder, createOrder, processItems, priceDays, rentDays, priceFor, normStr,
        findBook, newOrderRow, buyShippingFee, buyCodFee, round2, itemsTotal, processedOf,
        chargedPrice, catalogPrice, c3Store, c3Req, updateStock, newGiftRows, List.find?]
      norm_num [round2]⟩,
    rent_pricing_and_rental_end c3Store 1 c3Req 0 (fun n => toString n)
      rfl (by decide) (by decide) (by decide)⟩

/-- Claim C4: a committed buy order stores total = round2(sum of charged
unit price times quantity + one shipping fee from the fixed table
standard 30 / express 70 / priority 120, strictly increasing with speed,
+ a flat 10 COD fee when the payment method is cod). -/
theorem buy_total_formula
    (store : Store) (uid : ℕ) (req : OrderReq) (now : ℤ) (tk : ℕ → String)
    (hmode : req.mode = .buy)
    (hne : req.items ≠ [])
    (hval : ∀ i ∈ req.items, i.bookId ≠ "" ∧ 0 < i.quantity)
    (hex : ∀ i ∈ req.items, (findBook store.books i.bookId).isSome = true)
    (hstock : ∀ b ∈ store.books, totalQty req.items b.id ≤ b.stock) :
    ∃ s2 o, postOrder store uid req now tk = (s2, .created store.nextOrderId) ∧
      s2.orders = store.orders ++ [o] ∧
      o.total = round2 ((req.items.map (fun i =>
          catalogPrice store.books i.bookId * (i.quantity : ℚ))).sum +
        shippingCost (normStr req.shippingSpeed) +
        (if req.paymentMethod = some "cod" then 10 else 0)) ∧
      o.shippingFee = shippingCost (normStr req.shippingSpeed) ∧
      o.codFee = (if req.paymentMethod = some "cod" then 10 else 0) ∧
      shippingCost (some "standard") = 30 ∧
      shippingCost (some "express") = 70 ∧
      shippingCost (some "priority") = 120 ∧
      shippingCost (some "standard") < shippingCost (some "express") ∧
      shippingCost (some "express") < shippingCost (some "priority") := by
  obtain ⟨s2, oid, hok⟩ := createOrder_isOk store uid req now tk hne
    (fun hc => by rw [hmode] at hc; cases hc.1) hval hex (fun _ => hstock)
  obtain ⟨hoid, hs2⟩ := createOrder_ok_inv hok
  subst hoid
  have hit : itemsTotal store.books req.mode
      (priceDays req.mode req.rentalDuration) req.items =
      (req.items.map (fun i =>
        catalogPrice store.books i.bookId * (i.quantity : ℚ))).sum := by
    unfold itemsTotal processedOf chargedPrice priceFor
    rw [hmode, List.map_map]
    refine congrArg List.sum ?_
    apply List.map_congr_left
    intro i _
    rfl
  have hcod : buyCodFee req = (if req.paymentMethod = some "cod" then 10 else 0) := by
    unfold buyCodFee
    rw [hmode]
    simp
  have hship : buyShippingFee req = shippingCost (normStr req.shippingSpeed) := by
    unfold buyShippingFee
    rw [if_pos hmode]
  refine ⟨s2, newOrderRow store.nextOrderId uid req now
    (itemsTotal store.books req.mode (priceDays req.mode req.rentalDuration) req.items),
    ?_, ?_, ?_, ?_, ?_, by decide, by decide, by decide, by decide, by decide⟩
  · unfold postOrder
    rw [hok]
  · rw [hs2]
  · unfold newOrderRow
    dsimp only
    rw [hit, hcod, hship]
  · unfold newOrderRow
    dsimp only
    exact hship
  · unfold newOrderRow
    dsimp only
    exact hcod

/-- The C4 scenario: 2 units of a 100.00 book, standard shipping, no COD. -/
def c4Store : Store := ⟨[⟨"b1", 100, 5, some "u"⟩], [], [], [], [], 1⟩

def c4Req : OrderReq := ⟨[⟨"b1", 2⟩], .buy, none, none, none, some "standard"⟩

theorem buy_total_formula_witness :
    (postOrder c4Store 1 c4Req 0 (fun n => toString n)).1.orders.map
        (fun o => o.total) = [230] ∧
    ∃ s2 o, postOrder c4Store 1 c4Req 0 (fun n => toString n) = (s2, .created 1) ∧
      s2.orders = c4Store.orders ++ [o] ∧
      o.total = round2 ((c4Req.items.map (fun i =>
          catalogPrice c4Store.books i.bookId * (i.quantity : ℚ))).sum +
        shippingCost (normStr c4Req.shippingSpeed) +
        (if c4Req.paymentMethod = some "cod" then 10 else 0)) ∧
      o.shippingFee = shippingCost (normStr c4Req.shippingSpeed) ∧
      o.codFee = (if c4Req.paymentMethod = some "cod" then 10 else 0) ∧
      shippingCost (some "standard") = 30 ∧
      shippingCost (some "express") = 70 ∧
      shippingCost (some "priority") = 120 ∧
      shippingCost (some "standard") < shippingCost (some "express") ∧
      shippingCost (some "express") < shippingCost (some "priority") :=
  ⟨by
    simp [postOrder, createOrder, processItems, priceDays, rentDays, priceFor, normStr,
      findBook, newOrderRow, buyShippingFee, buyCodFee, round2, shippingCost,
      c4Store, c4Req, updateStock, newGiftRows, List.find?]
    norm_num,
  buy_total_formula c4Store 1 c4Req 0 (fun n => toString n)
    rfl (by decide) (by decide) (by decide) (by decide)⟩

/-- Claim C6: order retrieval never recomputes prices from the catalog —
changing any book's catalog price after checkout leaves the retrieved order
(and in particular its item prices) unchanged, and the retrieved item prices
are exactly the prices charged at creation time from the creation-time
catalog. -/
theorem order_item_prices_immutable
    (store : Store) (uid : ℕ) (req : OrderReq) (now : ℤ) (tk : ℕ → String)
    (s2 : Store) (oid : ℕ)
    (hok : createOrder store uid req now tk = .ok (s2, oid))
    (hfreshO : ∀ o ∈ store.orders, o.id ≠ store.nextOrderId)
    (hfreshI : ∀ oi ∈ store.orderItems, oi.orderId ≠ store.nextOrderId) :
    ∀ (bid : String) (p : ℚ) (t t2 : ℤ),
      getOrder (setBookPrice s2 bid p) oid uid t = getOrder s2 oid uid t ∧
      (getOrder s2 oid uid t2).map (fun r => r.2.map (fun oi => oi.price)) =
        some ((processedOf store.books req.mode
          (priceDays req.mode req.rentalDuration) req.items).map
            (fun q => q.price)) := by
  obtain ⟨hoid, hs2⟩ := createOrder_ok_inv hok
  subst hoid
  intro bid p t t2
  constructor
  · rfl
  · unfold getOrder
    rw [hs2]
    dsimp only
    rw [List.find?_append]
    have hnone : store.orders.find? (fun o =>
        decide (o.id = store.nextOrderId ∧ o.userId = uid)) = none := by
      rw [List.find?_eq_none]
      intro o ho
      simp only [decide_eq_true_eq, not_and]
      intro hc
      exact absurd hc (hfreshO o ho)
    rw [hnone]
    simp only [Option.none_or]
    rw [List.find?_cons_of_pos _ (by simp [newOrderRow])]
    simp only [Option.map_some']
    rw [List.filter_append]
    have hold : store.orderItems.filter
        (fun oi => decide (oi.orderId = store.nextOrderId)) = [] := by
      rw [List.filter_eq_nil_iff]
      intro oi hoi
      simp only [decide_eq_true_eq]
      exact hfreshI oi hoi
    rw [hold]
    have hnew : ((processedOf store.books req.mode
        (priceDays req.mode req.rentalDuration) req.items).map
          (fun q => OrderItemRow.mk store.nextOrderId q.bookId q.quantity q.price)).filter
        (fun oi => decide (oi.orderId = store.nextOrderId)) =
        (processedOf store.books req.mode
          (priceDays req.mode req.rentalDuration) req.items).map
          (fun q => OrderItemRow.mk store.nextOrderId q.bookId q.quantity q.price) := by
      rw [List.filter_eq_self]
      intro a ha
      obtain ⟨q, hq, rfl⟩ := List.mem_map.mp ha
      simp
    rw [hnew]
    simp [List.map_map, Function.comp]

/-- The C6 scenario: a rent order on a 400.00 book; afterwards the catalog
price is changed to 999. -/
def c6Store : Store := ⟨[⟨"b1", 400, 10, some "u"⟩], [], [], [], [], 1⟩

def c6Req : OrderReq := ⟨[⟨"b1", 1⟩], .rent, none, none, none, none⟩

theorem order_item_prices_immutable_witness :
    ∃ s2, createOrder c6Store 1 c6Req 0 (fun n => toString n) = .ok (s2, 1) ∧
      getOrder (setBookPrice s2 "b1" 999) 1 1 5 = getOrder s2 1 1 5 ∧
      (getOrder s2 1 1 5).map (fun r => r.2.map (fun oi => oi.price)) =
        some ((processedOf c6Store.books c6Req.mode
          (priceDays c6Req.mode c6Req.rentalDuration) c6Req.items).map
            (fun q => q.price)) := by
  cases hok : createOrder c6Store 1 c6Req 0 (fun n => toString n) with
  | error e =>
    exact absurd hok (by
      simp [createOrder, c6Store, c6Req, processItems, findBook, List.find?,
        priceDays, normStr])
  | ok r =>
    obtain ⟨s2, oid⟩ := r
    have hoid : oid = 1 := (createOrder_ok_inv hok).1
    subst hoid
    exact ⟨s2, rfl,
      order_item_prices_immutable c6Store 1 c6Req 0 (fun n => toString n) s2 1 hok
        (by decide) (by decide) "b1" 999 5 5⟩

/-- A committed checkout passed the request validation: items nonempty, and
gift mode carried a usable recipient email. -/
theorem createOrder_ok_validation {store : Store} {uid : ℕ} {req : OrderReq}
    {now : ℤ} {tk : ℕ → String} {s2 : Store} {oid : ℕ}
    (hok : createOrder store uid req now tk = .ok (s2, oid)) :
    req.items ≠ [] ∧ ¬(req.mode = .gift ∧ normStr req.giftEmail = none) := by
  unfold createOrder at hok
  by_cases h1 : req.items = []
  · rw [if_pos h1] at hok
    simp at hok
  · rw [if_neg h1] at hok
    by_cases h2 : req.mode = .gift ∧ normStr req.giftEmail = none
    · rw [if_pos h2] at hok
      simp at hok
    · exact ⟨h1, h2⟩

/-- Claim C7 (amended): on every committed order row, rental_end is set iff
the mode is rent and delivery_eta is set iff the mode is buy; gift_email is
set whenever the mode is gift, but the converse direction fails — a
gift_email supplied on a buy or rent request is persisted too.  The
reconciliation tick touches only the status field, so it preserves all
three. -/
theorem order_mode_field_invariants
    (store : Store) (uid : ℕ) (req : OrderReq) (now : ℤ) (tk : ℕ → String)
    (s2 : Store) (oid : ℕ)
    (hok : createOrder store uid req now tk = .ok (s2, oid)) :
    (∃ o, s2.orders = store.orders ++ [o] ∧
      (o.rentalEnd.isSome ↔ o.mode = .rent) ∧
      (o.deliveryEta.isSome ↔ o.mode = .buy) ∧
      (o.mode = .gift → o.giftEmail.isSome)) ∧
    (∀ (st : Store) (t : ℤ),
      (tick st t).orders.map
          (fun o => (o.mode, o.rentalEnd, o.deliveryEta, o.giftEmail)) =
        st.orders.map
          (fun o => (o.mode, o.rentalEnd, o.deliveryEta, o.giftEmail))) := by
  obtain ⟨hoid, hs2⟩ := createOrder_ok_inv hok
  obtain ⟨h1, h2⟩ := createOrder_ok_validation hok
  refine ⟨⟨newOrderRow store.nextOrderId uid req now
    (itemsTotal store.books req.mode (priceDays req.mode req.rentalDuration) req.items),
    ?_, ?_, ?_, ?_⟩, ?_⟩
  · rw [hs2]
  · unfold newOrderRow
    dsimp only
    by_cases hm : req.mode = .rent
    · simp [hm]
    · simp [hm]
  · unfold newOrderRow
    dsimp only
    by_cases hm : req.mode = .buy
    · simp [hm]
    · simp [hm]
  · intro hm
    unfold newOrderRow at hm ⊢
    dsimp only at hm ⊢
    cases hn : normStr req.giftEmail with
    | none => exact absurd ⟨hm, hn⟩ h2
    | some v => rfl
  · intro st t
    unfold tick
    dsimp only
    rw [List.map_map]
    apply List.map_congr_left
    intro o _
    simp only [Function.comp_apply]
    unfold tickComplete tickDeliver
    split_ifs <;> rfl

/-- The C7 counterexample request: a buy-mode order that also carries a
gift_email in its body. -/
def c7Store : Store := ⟨[⟨"b1", 100, 5, some "u"⟩], [], [], [], [], 1⟩

def c7Req : OrderReq := ⟨[⟨"b1", 1⟩], .buy, none, none, some "friend@x.com", none⟩

/-- Claim C7 is false as stated: this committed order has mode buy and a
non-null gift_email, because the insert writes `gift_email || null`
regardless of mode. -/
theorem gift_email_persisted_on_buy_order :
    ((createOrder c7Store 1 c7Req 0 (fun n => toString n)).toOption.map
      (fun r => r.1.orders.map (fun o => (o.mode, o.giftEmail)))) =
      some [(.buy, some "friend@x.com")] := by
  simp only [createOrder, c7Store, c7Req, processItems, findBook, List.find?,
    priceDays, normStr, newOrderRow, updateStock, newGiftRows]
  norm_num
  exact ⟨_, ⟨1, rfl⟩, rfl⟩

theorem order_mode_field_invariants_witness :
    ∃ s2 o, createOrder c7Store 1 c7Req 0 (fun n => toString n) = .ok (s2, 1) ∧
      s2.orders = c7Store.orders ++ [o] ∧
      (o.rentalEnd.isSome ↔ o.mode = .rent) ∧
      (o.deliveryEta.isSome ↔ o.mode = .buy) ∧
      (o.mode = .gift → o.giftEmail.isSome) := by
  cases hok : createOrder c7Store 1 c7Req 0 (fun n => toString n) with
  | error e =>
    exact absurd hok (by
      simp [createOrder, c7Store, c7Req, processItems, findBook, List.find?,
        priceDays, normStr])
  | ok r =>
    obtain ⟨s2, oid⟩ := r
    have hoid : oid = 1 := (createOrder_ok_inv hok).1
    subst hoid
    obtain ⟨⟨o, ho1, ho2, ho3, ho4⟩, _⟩ :=
      order_mode_field_invariants c7Store 1 c7Req 0 (fun n => toString n) s2 1 hok
    exact ⟨s2, o, rfl, ho1, ho2, ho3, ho4⟩

theorem enum_map_snd_comp {α β : Type} (l : List α) (f : α → β) :
    l.enum.map (fun p => f p.2) = l.map f := by
  rw [show (fun p : ℕ × α => f p.2) = f ∘ Prod.snd from rfl, ← List.map_map,
    List.enum_map_snd]

theorem findUser_of_mem_nodup {users : List UserRow}
    (hnd : (users.map UserRow.email).Nodup) {u : UserRow} (hu : u ∈ users) :
    users.find? (fun v => v.email = u.email) = some u := by
  induction users with
  | nil => cases hu
  | cons c rest ih =>
    rcases List.mem_cons.mp hu with rfl | hmem
    · rw [List.find?_cons_of_pos _ (by simp)]
    · have hcid : c.email ≠ u.email := by
        intro he
        have hmm : u.email ∈ rest.map UserRow.email := List.mem_map_of_mem _ hmem
        rw [← he] at hmm
        exact (List.nodup_cons.mp hnd).1 hmm
      rw [List.find?_cons_of_neg _ (by simp [hcid])]
      exact ih (List.nodup_cons.mp hnd).2 hmem

/-- Claim C8: a committed gift order creates exactly one gift row per
requested item, carrying pairwise-distinct claim tokens, each addressed to
the recipient email; when an account with that email exists at creation
time every row is pre-populated with its id and marked claimed at creation
time, and otherwise recipient id and claim timestamp are left null.  The
token stream models crypto.randomBytes and is assumed injective; user
emails are unique per the schema. -/
theorem gift_rows_per_item_with_auto_claim
    (store : Store) (uid : ℕ) (req : OrderReq) (now : ℤ) (tk : ℕ → String)
    (s2 : Store) (oid : ℕ) (e : String)
    (hmode : req.mode = .gift)
    (hemail : normStr req.giftEmail = some e)
    (hok : createOrder store uid req now tk = .ok (s2, oid))
    (hinj : Function.Injective tk)
    (hndu : (store.users.map UserRow.email).Nodup) :
    ∃ gs, s2.gifts = store.gifts ++ gs ∧
      gs.length = req.items.length ∧
      gs.map (fun g => (g.bookId, g.quantity)) =
        req.items.map (fun i => (i.bookId, i.quantity)) ∧
      (gs.map (fun g => g.claimToken)).Nodup ∧
      (∀ g ∈ gs, g.recipientEmail = e ∧ g.orderId = oid) ∧
      (∀ u ∈ store.users, u.email = e →
        ∀ g ∈ gs, g.recipientUserId = some u.id ∧ g.claimedAt = some now) ∧
      ((∀ u ∈ store.users, u.email ≠ e) →
        ∀ g ∈ gs, g.recipientUserId = none ∧ g.claimedAt = none) := by
  obtain ⟨hoid, hs2⟩ := createOrder_ok_inv hok
  subst hoid
  have hng : newGiftRows store store.nextOrderId req now tk =
      mkGiftRows store.nextOrderId req.items e
        ((store.users.find? (fun u => u.email = e)).map (fun u => u.id)) now tk := by
    unfold newGiftRows
    rw [if_pos hmode, hemail]
    rfl
  refine ⟨newGiftRows store store.nextOrderId req now tk, ?_, ?_, ?_, ?_, ?_, ?_, ?_⟩
  · rw [hs2]
  · rw [hng]
    unfold mkGiftRows
    rw [List.length_map, List.enum_length]
  · rw [hng]
    unfold mkGiftRows
    rw [List.map_map]
    exact enum_map_snd_comp req.items (fun i => (i.bookId, i.quantity))
  · rw [hng]
    unfold mkGiftRows
    rw [List.map_map]
    have : ((fun g => g.claimToken) ∘ (fun p : ℕ × ItemReq =>
        ({ orderId := store.nextOrderId
           bookId := p.2.bookId
           quantity := p.2.quantity
           recipientEmail := e
           claimToken := tk p.1
           recipientUserId :=
             (store.users.find? (fun u => u.email = e)).map (fun u => u.id)
           claimedAt :=
             if ((store.users.find? (fun u => u.email = e)).map
                 (fun u => u.id)).isSome then some now else none
           createdAt := now } : GiftRow))) = fun p => tk p.1 := rfl
    rw [this, show (fun p : ℕ × ItemReq => tk p.1) = tk ∘ Prod.fst from rfl,
      ← List.map_map, List.enum_map_fst]
    exact List.Nodup.map hinj (List.nodup_range _)
  · rw [hng]
    intro g hg
    obtain ⟨p, hp, rfl⟩ := List.mem_map.mp hg
    exact ⟨rfl, rfl⟩
  · intro u hu hue g hg
    rw [hng] at hg
    have hfind : store.users.find? (fun v => v.email = e) = some u := by
      rw [← hue]
      exact findUser_of_mem_nodup hndu hu
    unfold mkGiftRows at hg
    obtain ⟨p, hp, rfl⟩ := List.mem_map.mp hg
    rw [hfind]
    exact ⟨rfl, rfl⟩
  · intro hnou g hg
    rw [hng] at hg
    have hfind : store.users.find? (fun v => v.email = e) = none := by
      rw [List.find?_eq_none]
      intro v hv
      simp only [decide_eq_true_eq]
      exact hnou v hv
    unfold mkGiftRows at hg
    obtain ⟨p, hp, rfl⟩ := List.mem_map.mp hg
    rw [hfind]
    exact ⟨rfl, rfl⟩

/-- An injective token stream standing in for crypto.randomBytes in
witnesses. -/
def tokenStream (n : ℕ) : String := String.mk (List.replicate n 'a')

theorem tokenStream_injective : Function.Injective tokenStream := by
  intro a b h
  have h2 := congrArg (fun s => s.data.length) h
  simpa [tokenStream] using h2

/-- The C8 scenario: a two-item gift order to an email that has an account
(auto-claim) — and the same order to an unknown email. -/
def c8Store : Store :=
  ⟨[⟨"b1", 100, 5, some "u"⟩, ⟨"b2", 50, 5, some "v"⟩],
    [⟨7, "r@x.com"⟩], [], [], [], 1⟩

def c8Req : OrderReq :=
  ⟨[⟨"b1", 1⟩, ⟨"b2", 2⟩], .gift, none, none, some "r@x.com", none⟩

theorem gift_rows_per_item_with_auto_claim_witness :
    ∃ s2 gs, createOrder c8Store 1 c8Req 0 tokenStream = .ok (s2, 1) ∧
      s2.gifts = c8Store.gifts ++ gs ∧
      gs.length = c8Req.items.length ∧
      gs.map (fun g => (g.bookId, g.quantity)) =
        c8Req.items.map (fun i => (i.bookId, i.quantity)) ∧
      (gs.map (fun g => g.claimToken)).Nodup ∧
      (∀ g ∈ gs, g.recipientEmail = "r@x.com" ∧ g.orderId = 1) ∧
      (∀ g ∈ gs, g.recipientUserId = some 7 ∧ g.claimedAt = some 0) := by
  cases hok : createOrder c8Store 1 c8Req 0 tokenStream with
  | error e =>
    exact absurd hok (by
      simp [createOrder, c8Store, c8Req, processItems, findBook, List.find?,
        priceDays, normStr])
  | ok r =>
    obtain ⟨s2, oid⟩ := r
    have hoid : oid = 1 := (createOrder_ok_inv hok).1
    subst hoid
    obtain ⟨gs, hg1, hg2, hg3, hg4, hg5, hg6, _⟩ :=
      gift_rows_per_item_with_auto_claim c8Store 1 c8Req 0 tokenStream
        s2 1 "r@x.com" rfl rfl hok tokenStream_injective (by decide)
    refine ⟨s2, gs, rfl, hg1, hg2, hg3, hg4, hg5, ?_⟩
    intro g hg
    exact hg6 ⟨7, "r@x.com"⟩ (by decide) rfl g hg

end Bookstore
